import Mathlib

/-!
Verification of the netbox-dnsverify reconciliation engine.

Shallow embedding of the Go sources: `validator.go`, `nsupdate.go`,
`soa_validator.go`, `dnsutils.go` (`src/unnamed/part_005`) and the shared
helpers of `src/unnamed/part_007`.  DNS network traffic is modelled by an
oracle assigning to every server and attempt number the outcome of one
`dns.Client.Exchange` call; every embedded function additionally reports how
many queries it issued, so "no server is contacted" is a provable statement.
Go `int` fields become `Int`, `*int` becomes `Option Int`, `uint32` becomes
`Nat`, `interface{}` payloads become the closed variant `DiscValue`.
-/

namespace NetboxDnsverify

/-- Zone metadata as the validator consumes it (`main.go` populates
`DefaultTTL` and `SoaTTL` from the zones endpoint). -/
structure Zone where
  name : String
  defaultTTL : Int
  soaTTL : Int
deriving Repr, DecidableEq

/-- One inventory record (`types.go`, the revision carrying `TTL *int` and the
derived `ZoneName`/`ViewName`/`ZoneDefaultTTL` fields).  `rtype` embeds the Go
field `Type`. -/
structure Record where
  rtype : String
  name : String
  fqdn : String
  value : String
  ttl : Option Int
  zoneName : String
  viewName : String
  zoneDefaultTTL : Int
deriving Repr, DecidableEq

/-- Grouping key for comparison units (`common.go`). -/
structure RecordKey where
  fqdn : String
  recordType : String
  zoneName : String
  viewName : String
deriving Repr, DecidableEq

/-- Parsed SOA value (`soa_validator.go`); numeric fields are Go `uint32`. -/
structure SOARecord where
  mname : String
  rname : String
  serial : Nat
  refresh : Nat
  retry : Nat
  expire : Nat
  minimum : Nat
deriving Repr, DecidableEq

/-- The `interface{}` payload stored in `Discrepancy.Expected`/`Actual`:
either absent (`nil`), a `[]string`, a plain `string` (AXFR path), or an
`SOARecord`. -/
inductive DiscValue where
  | nil
  | strs (vs : List String)
  | str (s : String)
  | soa (r : SOARecord)
deriving Repr, DecidableEq

/-- A reported mismatch (`common.go`).  Absent fields keep Go zero values. -/
structure Discrepancy where
  fqdn : String := ""
  recordType : String := ""
  zoneName : String := ""
  expected : DiscValue := .nil
  actual : DiscValue := .nil
  expectedTTL : Int := 0
  actualTTL : Int := 0
  server : String := ""
  message : String := ""
deriving Repr, DecidableEq

/-- A recorded successful validation (`common.go`). -/
structure ValidationRecord where
  fqdn : String := ""
  recordType : String := ""
  zoneName : String := ""
  expected : DiscValue := .nil
  actual : DiscValue := .nil
  expectedTTL : Int := 0
  actualTTL : Int := 0
  server : String := ""
  message : String := ""
deriving Repr, DecidableEq

/-! ### String helpers mirroring the Go standard library -/

/-- Models `strings.HasSuffix(s, ".")`: a one-character suffix test is a test
on the last character. -/
def hasSuffixDot (s : String) : Bool :=
  s.data.getLast? == some '.'

/-- Models `strings.TrimRight(s, ".")`: remove every trailing dot. -/
def trimRightDots (s : String) : String :=
  String.mk (s.data.reverse.dropWhile (fun c => c == '.')).reverse

/-- Models `strings.HasSuffix`. -/
def goHasSuffix (s suffix : String) : Bool :=
  suffix.data.isSuffixOf s.data

/-- Models `strings.TrimSpace` (Unicode white space at both ends). -/
def goTrimSpace (s : String) : String :=
  String.mk ((s.data.dropWhile Char.isWhitespace).reverse.dropWhile Char.isWhitespace).reverse

/-- Models `strings.EqualFold` by per-character lower-casing; this agrees with
Go's simple case folding on the ASCII data the tool handles. -/
def goEqualFold (a b : String) : Bool :=
  a.data.map Char.toLower == b.data.map Char.toLower

/-- Models `strings.ToUpper` (ASCII-exact). -/
def goToUpper (s : String) : String :=
  String.mk (s.data.map Char.toUpper)

/-! ### `stringSlicesEqualUnordered` (`common.go`, src/unnamed/part_007) -/

/-- One `aMap[val]++` step of the counting loop: the Go map of counts is a
total function defaulting to zero. -/
def bumpCount (m : String → Nat) (v : String) : String → Nat :=
  fun s => if s = v then m s + 1 else m s

/-- The second loop of `stringSlicesEqualUnordered`: walk `b`, failing on a
missing or exhausted count, decrementing otherwise. -/
def consumeCounts (m : String → Nat) : List String → Option (String → Nat)
  | [] => some m
  | v :: vs =>
    if m v = 0 then none
    else consumeCounts (fun s => if s = v then m s - 1 else m s) vs

/-- Function `stringSlicesEqualUnordered` from `common.go`: length check, build counts
of `a`, consume along `b`, then require every remaining count to be zero (the
final map iteration visits exactly the keys occurring in `a`). -/
def stringSlicesEqualUnordered (a b : List String) : Bool :=
  if a.length ≠ b.length then false
  else
    match consumeCounts (a.foldl bumpCount fun _ => 0) b with
    | none => false
    | some m => a.all fun s => m s == 0

/-- The branch condition of `validator.go` lines 298-300 deciding Discrepancy
versus Success: unordered value mismatch or TTL mismatch. -/
def comparisonMismatch (expectedValues actualValues : List String)
    (expectedTTL actualTTL : Int) : Bool :=
  !(stringSlicesEqualUnordered expectedValues actualValues)
    || (expectedTTL != actualTTL)

/-! ### DNS query gateway (`dnsutils.go`, src/unnamed/part_005) -/

/-- One DNS answer resource record as the validator's type switch consumes it:
`value` is `some v` for the extracted A/AAAA/CNAME/NS/PTR value and `none` for
record kinds the `default` branch skips.  `ttl` is the header TTL. -/
structure Answer where
  value : Option String
  ttl : Int
deriving Repr, DecidableEq

/-- A DNS response message restricted to the fields the engine reads. -/
structure Msg where
  rcode : Nat
  answer : List Answer
deriving Repr, DecidableEq

/-- The outcome of one `dns.Client.Exchange` call: a transport error, or a
response message (whose `Rcode` may still indicate failure). -/
inductive AttemptResult where
  | exchangeErr (e : String)
  | response (m : Msg)
deriving Repr, DecidableEq

def rcodeSuccess : Nat := 0

/-- Constant `dns.RcodeNameError` (NXDOMAIN). -/
def rcodeNameError : Nat := 3

/-- Function `queryDNS` from `dnsutils.go`: a transport error returns `(nil, err)`; a
response with non-success `Rcode` is returned together with an error; a
success returns `(resp, nil)`. -/
def queryDNS (a : AttemptResult) : Option Msg × Option String :=
  match a with
  | .exchangeErr e => (none, some e)
  | .response m =>
    if m.rcode ≠ rcodeSuccess then
      (some m, some ("DNS query failed with Rcode " ++ toString m.rcode))
    else (some m, none)

/-- The retry loop of `queryDNSWithRetry`: `i` is the attempt index, `fuel`
the remaining iterations, `last` the `(resp, err)` pair left by the previous
attempt.  Also returns the number of queries issued. -/
def queryDNSWithRetryGo (attempts : Nat → AttemptResult) (i fuel : Nat)
    (last : Option Msg × Option String) : (Option Msg × Option String) × Nat :=
  match fuel with
  | 0 => (last, i)
  | Nat.succ fuel' =>
    let r := queryDNS (attempts i)
    match r.2 with
    | none => (r, i + 1)
    | some _ => queryDNSWithRetryGo attempts (i + 1) fuel' r

/-- Function `queryDNSWithRetry` from `dnsutils.go`: up to `retries` attempts, stopping
at the first success and otherwise returning the last attempt's `(resp, err)`
pair, paired here with the number of queries issued. -/
def queryDNSWithRetry (attempts : Nat → AttemptResult) (retries : Nat) :
    (Option Msg × Option String) × Nat :=
  queryDNSWithRetryGo attempts 0 retries (none, none)

/-! ### Expected-state computation (`validator.go` lines 144-188) -/

/-- The CNAME qualification step of `validator.go` lines 148-156: an inventory
value without a trailing root label gets the owning zone name (stripped of
trailing dots) appended. -/
def qualifyCNAMEValue (zoneName value : String) : String :=
  if ¬ hasSuffixDot value then
    if trimRightDots zoneName ≠ "" then
      value ++ "." ++ trimRightDots zoneName ++ "."
    else value ++ "."
  else value

/-- The expected value contributed by one record of the group. -/
def qualifiedValue (key : RecordKey) (r : Record) : String :=
  if key.recordType = "CNAME" then qualifyCNAMEValue r.zoneName r.value
  else r.value

/-- Go `map[string]Zone` lookup on the association list `zonesByName`. -/
def lookupZone (zonesByName : List (String × Zone)) (name : String) : Option Zone :=
  (zonesByName.find? (fun p => p.1 == name)).map (·.2)

/-- The non-explicit-TTL branches of `validator.go` lines 164-180: for an NS
record at the zone apex use the zone's SOA TTL when positive, otherwise the
zone default TTL; all other records use the zone default TTL. -/
def resolveDefaultTTL (key : RecordKey) (zonesByName : List (String × Zone))
    (r : Record) : Int :=
  if key.recordType = "NS" ∧ r.name = "@" then
    match lookupZone zonesByName key.zoneName with
    | some z => if z.soaTTL > 0 then z.soaTTL else r.zoneDefaultTTL
    | none => r.zoneDefaultTTL
  else r.zoneDefaultTTL

/-- Per-record TTL resolution (`validator.go` lines 160-180): an explicit
positive record TTL wins, otherwise `resolveDefaultTTL`. -/
def resolveRecordTTL (key : RecordKey) (zonesByName : List (String × Zone))
    (r : Record) : Int :=
  match r.ttl with
  | some t => if t > 0 then t else resolveDefaultTTL key zonesByName r
  | none => resolveDefaultTTL key zonesByName r

/-- One step of the `expectedTTL` accumulation (`validator.go` lines 182-187):
state is `(expectedTTL, warned)`. -/
def expectedTTLStep (acc : Int × Bool) (recordTTL : Int) : Int × Bool :=
  if acc.1 = 0 then (recordTTL, acc.2)
  else if acc.1 ≠ recordTTL then (acc.1, true)
  else acc

/-- The expected value list of a comparison unit. -/
def expectedValuesOf (key : RecordKey) (records : List Record) : List String :=
  records.map (qualifiedValue key)

/-- The resolved TTL of a comparison unit. -/
def expectedTTLOf (key : RecordKey) (zonesByName : List (String × Zone))
    (records : List Record) : Int :=
  ((records.map (resolveRecordTTL key zonesByName)).foldl expectedTTLStep (0, false)).1

/-- Whether the multiple-TTLs warning fires for a comparison unit. -/
def ttlWarningOf (key : RecordKey) (zonesByName : List (String × Zone))
    (records : List Record) : Bool :=
  ((records.map (resolveRecordTTL key zonesByName)).foldl expectedTTLStep (0, false)).2

/-! ### Per-server validation (`validator.go` lines 208-330) -/

/-- The record-type names in `dns.StringToType` (miekg/dns): the validator
recognises exactly these. -/
def dnsStringToTypeKnown : List String :=
  ["NONE", "A", "NS", "MD", "MF", "CNAME", "SOA", "MB", "MG", "MR", "NULL",
   "PTR", "HINFO", "MINFO", "MX", "TXT", "RP", "AFSDB", "X25", "ISDN", "RT",
   "NSAPPTR", "SIG", "KEY", "PX", "GPOS", "AAAA", "LOC", "NXT", "EID",
   "NIMLOC", "SRV", "ATMA", "NAPTR", "KX", "CERT", "DNAME", "OPT", "APL",
   "DS", "SSHFP", "IPSECKEY", "RRSIG", "NSEC", "DNSKEY", "DHCID", "NSEC3",
   "NSEC3PARAM", "TLSA", "SMIMEA", "HIP", "NINFO", "RKEY", "TALINK", "CDS",
   "CDNSKEY", "OPENPGPKEY", "CSYNC", "ZONEMD", "SVCB", "HTTPS", "SPF",
   "UINFO", "UID", "GID", "UNSPEC", "NID", "L32", "L64", "LP", "EUI48",
   "EUI64", "URI", "CAA", "AVC", "AMTRELAY", "TKEY", "TSIG", "IXFR", "AXFR",
   "MAILB", "MAILA", "ANY", "TA", "DLV", "Reserved"]

/-- Whether `dns.StringToType[t]` succeeds. -/
def knownRecordType (t : String) : Bool :=
  dnsStringToTypeKnown.contains t

/-- One step of the answer-section reduction (`validator.go` lines 266-296):
state is `(actualValues, actualTTL, warned)`; unsupported record kinds are
skipped entirely. -/
def collectStep (acc : List String × Int × Bool) (a : Answer) :
    List String × Int × Bool :=
  match a.value with
  | none => acc
  | some v =>
    let vs := acc.1 ++ [v]
    if acc.2.1 = 0 then (vs, a.ttl, acc.2.2)
    else if acc.2.1 ≠ a.ttl then (vs, acc.2.1, true)
    else (vs, acc.2.1, acc.2.2)

/-- Reduce a populated answer section to comparable values and a TTL. -/
def collectAnswers (answers : List Answer) : List String × Int × Bool :=
  answers.foldl collectStep ([], 0, false)

/-- The branching of the per-server loop of `validateRecordsForFQDN`
(`validator.go` lines 216-330) on the `(resp, err)` pair returned by
`queryDNSWithRetry` (paired with the query count `n`). -/
def serverOutcome (key : RecordKey) (expectedValues : List String)
    (expectedTTL : Int) (recordSuccessful : Bool) (server : String) :
    (Option Msg × Option String) × Nat →
      List Discrepancy × List ValidationRecord × Nat
  | ((respOpt, errOpt), n) =>
  match errOpt with
  | some e =>
    match respOpt with
    | some m =>
      if m.rcode = rcodeNameError then
        ([{ fqdn := key.fqdn, recordType := key.recordType,
            zoneName := key.zoneName, expected := .strs expectedValues,
            actual := .strs [], expectedTTL := expectedTTL, server := server,
            message := "Record missing (NXDOMAIN)" }], [], n)
      else
        ([{ fqdn := key.fqdn, recordType := key.recordType,
            zoneName := key.zoneName, expected := .strs expectedValues,
            server := server, message := "DNS query error: " ++ e }], [], n)
    | none =>
      ([{ fqdn := key.fqdn, recordType := key.recordType,
          zoneName := key.zoneName, expected := .strs expectedValues,
          server := server, message := "DNS query error: " ++ e }], [], n)
  | none =>
    match respOpt with
    | none => ([], [], n)
    | some m =>
      if m.answer.length = 0 then
        ([{ fqdn := key.fqdn, recordType := key.recordType,
            zoneName := key.zoneName, expected := .strs expectedValues,
            actual := .strs [], expectedTTL := expectedTTL, server := server,
            message := "Record missing" }], [], n)
      else
        let col := collectAnswers m.answer
        let actualValues := col.1
        let actualTTL := col.2.1
        if comparisonMismatch expectedValues actualValues expectedTTL actualTTL then
          ([{ fqdn := key.fqdn, recordType := key.recordType,
              zoneName := key.zoneName, expected := .strs expectedValues,
              actual := .strs actualValues, expectedTTL := expectedTTL,
              actualTTL := actualTTL, server := server }], [], n)
        else if recordSuccessful then
          ([], [{ fqdn := key.fqdn, recordType := key.recordType,
                  zoneName := key.zoneName, expected := .strs expectedValues,
                  actual := .strs actualValues, expectedTTL := expectedTTL,
                  actualTTL := actualTTL, server := server,
                  message := "Record validated successfully" }], n)
        else ([], [], n)

/-- The body of the per-server loop of `validateRecordsForFQDN`
(`validator.go` lines 208-330), for one server, driven by that server's
attempt oracle. -/
def perServerValidate (key : RecordKey) (expectedValues : List String)
    (expectedTTL : Int) (recordSuccessful : Bool)
    (attempts : Nat → AttemptResult) (server : String) :
    List Discrepancy × List ValidationRecord × Nat :=
  serverOutcome key expectedValues expectedTTL recordSuccessful server
    (queryDNSWithRetry attempts 3)

/-- Function `validateRecordsForFQDN` (`validator.go` lines 132-333).  The oracle maps
a server name and attempt index to the outcome of that `Exchange` call.  The
third component counts the DNS queries issued. -/
def validateRecordsForFQDN (key : RecordKey) (records : List Record)
    (servers : List String) (recordSuccessful : Bool)
    (zonesByName : List (String × Zone))
    (oracle : String → Nat → AttemptResult) :
    List Discrepancy × List ValidationRecord × Nat :=
  let expectedValues := expectedValuesOf key records
  let expectedTTL := expectedTTLOf key zonesByName records
  if ¬ knownRecordType key.recordType then
    ([{ fqdn := key.fqdn, recordType := key.recordType,
        zoneName := key.zoneName, expected := .strs expectedValues,
        message := "Unknown record type" }], [], 0)
  else
    servers.foldl
      (fun acc server =>
        let r := perServerValidate key expectedValues expectedTTL
          recordSuccessful (oracle server) server
        (acc.1 ++ r.1, acc.2.1 ++ r.2.1, acc.2.2 + r.2.2))
      ([], [], 0)

/-! ### Authority resolution and unit dispatch (`validator.go` lines 32-110) -/

/-- A zone entry of a nameserver, with its optional view
(`Nameserver.Zones[i]` and `Zone.View`). -/
structure NSZone where
  name : String
  view : Option String
deriving Repr, DecidableEq

/-- A nameserver with the zones it serves (`types.go`). -/
structure Nameserver where
  name : String
  zones : List NSZone
deriving Repr, DecidableEq

/-- The `fmt.Sprintf("%s|%s", zone, view)` key. -/
def zoneViewKey (zoneName viewName : String) : String :=
  zoneName ++ "|" ++ viewName

/-- Go `map[k] = append(map[k], v)` on an association list keeping first-insert
order and unique keys. -/
def multiAppend (m : List (String × List String)) (k v : String) :
    List (String × List String) :=
  if m.any (fun p => p.1 == k) then
    m.map (fun p => if p.1 == k then (p.1, p.2 ++ [v]) else p)
  else m ++ [(k, [v])]

/-- Map `zoneViewToNameservers` construction (`validator.go` lines 32-43); zones
without a view are skipped with a warning. -/
def buildZoneViewMap (nameservers : List Nameserver) :
    List (String × List String) :=
  nameservers.foldl
    (fun m ns =>
      ns.zones.foldl
        (fun m z =>
          match z.view with
          | some viewName => multiAppend m (zoneViewKey z.name viewName) ns.name
          | none => m)
        m)
    []

/-- Reading `zoneViewToNameservers[key]` (a missing key yields the empty
slice). -/
def lookupServers (m : List (String × List String)) (k : String) :
    List String :=
  ((m.find? (fun p => p.1 == k)).map (·.2)).getD []

/-- The per-unit goroutine body of `validateAllRecords` (`validator.go` lines
70-110): resolve the authoritative servers for the unit's zone and view, skip
the unit when either is missing or no server is registered. -/
def processUnit (nameservers : List Nameserver) (key : RecordKey)
    (records : List Record) (recordSuccessful : Bool)
    (zonesByName : List (String × Zone))
    (oracle : String → Nat → AttemptResult) :
    List Discrepancy × List ValidationRecord × Nat :=
  if key.zoneName ≠ "" ∧ key.viewName ≠ "" then
    let recordServers :=
      lookupServers (buildZoneViewMap nameservers)
        (zoneViewKey key.zoneName key.viewName)
    if recordServers.length = 0 then ([], [], 0)
    else validateRecordsForFQDN key records recordServers recordSuccessful
      zonesByName oracle
  else ([], [], 0)

/-! ### Corrective script generation (`nsupdate.go`) -/

/-- The vocabulary of nsupdate script lines.  The four `update`/`send` forms
are the `fmt.Fprintf` formats of `nsupdate.go`; `serverDirective` and
`zoneDirective` are the nsupdate preamble directives, included so the claimed
preamble is statable (the generator never emits them). -/
inductive NSUpdateCmd where
  | updateDelete (fqdn rtype val : String)
  | updateAdd (fqdn : String) (ttl : Int) (rtype val : String)
  | deleteSOA (fqdn : String)
  | addSOA (fqdn : String) (ttl : Int) (soa : SOARecord)
  | serverDirective (s : String)
  | zoneDirective (z : String)
  | send
deriving Repr, DecidableEq

/-- Function `stringInSlice` (`nsupdate.go` lines 147-154): case-insensitive membership
after trimming white space. -/
def stringInSlice (str : String) (list : List String) : Bool :=
  list.any (fun v => goEqualFold (goTrimSpace v) (goTrimSpace str))

/-- The record types handled by the `switch` in
`generateNSUpdateScriptForDiscrepancies`. -/
def supportedUpdateType (t : String) : Bool :=
  ["A", "AAAA", "CNAME", "PTR", "NS"].contains t

/-- The per-discrepancy body of the server loop of
`generateNSUpdateScriptForDiscrepancies` (`nsupdate.go` lines 75-138): skip a
nil `Expected`; for list-valued types emit either the TTL-only delete+add
sequence or the delete/add difference; for SOA emit delete+add of the
reconstructed value; skip everything else. -/
def scriptForDiscrepancy (d : Discrepancy) : List NSUpdateCmd :=
  match d.expected with
  | .nil => []
  | _ =>
    if supportedUpdateType d.recordType then
      match d.expected with
      | .strs expectedValues =>
        let actualValues := match d.actual with | .strs vs => vs | _ => []
        if stringSlicesEqualUnordered expectedValues actualValues
            ∧ d.expectedTTL ≠ d.actualTTL then
          (expectedValues.map (fun val =>
            [NSUpdateCmd.updateDelete d.fqdn d.recordType val,
             NSUpdateCmd.updateAdd d.fqdn d.expectedTTL d.recordType val])).flatten
        else
          (actualValues.filter (fun val => ¬ stringInSlice val expectedValues)).map
              (NSUpdateCmd.updateDelete d.fqdn d.recordType)
            ++ (expectedValues.filter (fun val => ¬ stringInSlice val actualValues)).map
              (fun val => NSUpdateCmd.updateAdd d.fqdn d.expectedTTL d.recordType val)
      | _ => []
    else if d.recordType = "SOA" then
      match d.expected with
      | .soa s => [NSUpdateCmd.deleteSOA d.fqdn,
                   NSUpdateCmd.addSOA d.fqdn d.expectedTTL s]
      | _ => []
    else []

/-- The file written for one server (`nsupdate.go` lines 65-142): the
discrepancy blocks of that server in input order, terminated by one `send`. -/
def scriptForServer (discrepancies : List Discrepancy) (server : String) :
    List NSUpdateCmd :=
  ((discrepancies.filter (fun d => d.server == server)).map
    scriptForDiscrepancy).flatten ++ [NSUpdateCmd.send]

/-- Function `recordsEqual` (`nsupdate.go` lines 156-173). -/
def recordsEqualDV (expected actual : DiscValue) : Bool :=
  match expected with
  | .strs es =>
    match actual with
    | .strs as => stringSlicesEqualUnordered es as
    | _ => false
  | .soa s =>
    match actual with
    | .soa t => s == t
    | _ => false
  | _ => false

/-- The split of `generateNSUpdateScripts` (`nsupdate.go` lines 26-36) into
record discrepancies and TTL-only discrepancies. -/
def splitDiscrepancies (discrepancies : List Discrepancy) :
    List Discrepancy × List Discrepancy :=
  (discrepancies.filter
     (fun d => !(recordsEqualDV d.expected d.actual && (d.expectedTTL != d.actualTTL))),
   discrepancies.filter
     (fun d => recordsEqualDV d.expected d.actual && (d.expectedTTL != d.actualTTL)))

/-! ### Bulk reconciliation (`validator.go` lines 335-542) -/

/-- A transferred resource record as the AXFR path consumes it: owner name,
`dns.TypeToString` name, `extractRRValue` result, and header TTL. -/
structure AxfrRR where
  name : String
  rtypeStr : String
  value : String
  ttl : Int
deriving Repr, DecidableEq

/-- A DNS-side record with no inventory entry (`MissingRecord`). -/
structure MissingRecord where
  fqdn : String
  recordType : String
  zoneName : String
  value : String
  ttl : Int
  server : String
deriving Repr, DecidableEq

/-- The `fmt.Sprintf("%s|%s", fqdn, type)` map key. -/
def fqdnTypeKey (fqdn rtype : String) : String :=
  fqdn ++ "|" ++ rtype

/-- Go map assignment `m[k] = v` on an association list: overwrite the
existing entry or append a fresh one. -/
def mapInsert {α : Type} (m : List (String × α)) (k : String) (v : α) :
    List (String × α) :=
  if m.any (fun p => p.1 == k) then
    m.map (fun p => if p.1 == k then (p.1, v) else p)
  else m ++ [(k, v)]

/-- Go map read `m[k]`. -/
def mapLookup {α : Type} (m : List (String × α)) (k : String) : Option α :=
  (m.find? (fun p => p.1 == k)).map (·.2)

/-- Map `expectedRecordsMap` construction (`validator.go` lines 364-368). -/
def buildExpectedRecordsMap (records : List Record) : List (String × Record) :=
  records.foldl
    (fun m r => mapInsert m (fqdnTypeKey r.fqdn (goToUpper r.rtype)) r) []

/-- Map `actualRecordsMap` construction (`validator.go` lines 407-412). -/
def buildActualRecordsMap (rrs : List AxfrRR) : List (String × AxfrRR) :=
  rrs.foldl (fun m rr => mapInsert m (fqdnTypeKey rr.name rr.rtypeStr) rr) []

/-- Function `compareRecord` (`validator.go` lines 513-522): case-insensitive trimmed
value equality, and a TTL-mismatch flag against the zone default TTL. -/
def compareRecord (expected : Record) (actualRR : AxfrRR) : Bool × Bool :=
  (goEqualFold (goTrimSpace expected.value) (goTrimSpace actualRR.value),
   expected.zoneDefaultTTL != actualRR.ttl)

/-- The discrepancies one expected-map entry contributes in the comparison
loop of `validateAllRecordsAXFR` (`validator.go` lines 414-453): skip entries
outside the zone; a key absent from the actual map yields "Record missing in
DNS"; a value or TTL mismatch yields "Record mismatch". -/
def axfrEntryDiscs (actualMap : List (String × AxfrRR))
    (zoneName server : String) (kv : String × Record) : List Discrepancy :=
  if ¬ goHasSuffix kv.2.fqdn zoneName then []
  else
    match mapLookup actualMap kv.1 with
    | none =>
      [{ fqdn := kv.2.fqdn, recordType := kv.2.rtype, zoneName := zoneName,
         expected := .str kv.2.value, actual := .str "",
         expectedTTL := kv.2.zoneDefaultTTL, server := server,
         message := "Record missing in DNS" }]
    | some rr =>
      if ¬ (compareRecord kv.2 rr).1 ∨ (compareRecord kv.2 rr).2 then
        [{ fqdn := kv.2.fqdn, recordType := kv.2.rtype, zoneName := zoneName,
           expected := .str kv.2.value, actual := .str rr.value,
           expectedTTL := kv.2.zoneDefaultTTL, actualTTL := rr.ttl,
           server := server, message := "Record mismatch" }]
      else []

/-- The successful validations one expected-map entry contributes
(`validator.go` lines 455-468). -/
def axfrEntrySuccs (actualMap : List (String × AxfrRR))
    (zoneName server : String) (recordSuccessful : Bool)
    (kv : String × Record) : List ValidationRecord :=
  if ¬ goHasSuffix kv.2.fqdn zoneName then []
  else
    match mapLookup actualMap kv.1 with
    | none => []
    | some rr =>
      if ¬ (compareRecord kv.2 rr).1 ∨ (compareRecord kv.2 rr).2 then []
      else if recordSuccessful then
        [{ fqdn := kv.2.fqdn, recordType := kv.2.rtype, zoneName := zoneName,
           expected := .str kv.2.value, actual := .str rr.value,
           expectedTTL := kv.2.zoneDefaultTTL, actualTTL := rr.ttl,
           server := server, message := "Record validated successfully" }]
      else []

/-- The expected-side comparison loop of `validateAllRecordsAXFR`
(`validator.go` lines 414-469) for one zone: the Go loop appends each
entry's output to shared collections, yielding the concatenation of the
per-entry outputs. -/
def axfrCompareExpected (expectedMap : List (String × Record))
    (actualMap : List (String × AxfrRR)) (zoneName server : String)
    (recordSuccessful : Bool) : List Discrepancy × List ValidationRecord :=
  ((expectedMap.map (axfrEntryDiscs actualMap zoneName server)).flatten,
   (expectedMap.map
     (axfrEntrySuccs actualMap zoneName server recordSuccessful)).flatten)

/-- Keys of an association-list map. -/
def keysOf {α : Type} (m : List (String × α)) : List String :=
  m.map (·.1)

/-- The orphan-detection loop of `validateAllRecordsAXFR` (`validator.go`
lines 471-485): every actual-map entry whose key is absent from the expected
map becomes one `MissingRecord`. -/
def axfrMissing (expectedMap : List (String × Record))
    (actualMap : List (String × AxfrRR)) (zoneName server : String) :
    List MissingRecord :=
  (actualMap.filter (fun kv => (mapLookup expectedMap kv.1).isNone)).map
    (fun kv => { fqdn := kv.2.name, recordType := kv.2.rtypeStr,
                 zoneName := zoneName, value := kv.2.value, ttl := kv.2.ttl,
                 server := server })

/-! ### SOA parsing (`soa_validator.go`) -/

/-- Worker for `goFields`: `acc` holds the current field reversed. -/
def fieldsAux : List Char → List Char → List String
  | acc, [] => if acc.isEmpty then [] else [String.mk acc.reverse]
  | acc, c :: cs =>
    if c.isWhitespace then
      if acc.isEmpty then fieldsAux [] cs
      else String.mk acc.reverse :: fieldsAux [] cs
    else fieldsAux (c :: acc) cs

/-- Models `strings.Fields`: maximal runs of non-white-space characters. -/
def goFields (s : String) : List String :=
  fieldsAux [] s.data

/-- Models `parseUint32` (`fmt.Sscanf(s, "%d", &val)` into a `uint32`): the
leading decimal digits give the value; no leading digit, or a value out of
`uint32` range, leaves the zero value. -/
def parseUint32 (s : String) : Nat :=
  let ds := s.data.takeWhile Char.isDigit
  if ds.isEmpty then 0
  else
    let n := ds.foldl (fun a c => a * 10 + (c.toNat - 48)) 0
    if n < 2 ^ 32 then n else 0

/-- Function `parseSOARecord` (`soa_validator.go` lines 207-221): exactly 7
white-space-separated fields, numeric fields through `parseUint32`. -/
def parseSOARecord (value : String) : Option SOARecord :=
  let parts := goFields value
  if parts.length ≠ 7 then none
  else
    some { mname := parts.getD 0 "", rname := parts.getD 1 "",
           serial := parseUint32 (parts.getD 2 ""),
           refresh := parseUint32 (parts.getD 3 ""),
           retry := parseUint32 (parts.getD 4 ""),
           expire := parseUint32 (parts.getD 5 ""),
           minimum := parseUint32 (parts.getD 6 "") }

/-- The format gate of `validateSOARecord` (`soa_validator.go` lines 92-102):
a failed parse yields the single "Invalid SOA record format" discrepancy. -/
def soaFormatCheck (record : Record) : Option Discrepancy :=
  match parseSOARecord record.value with
  | none => some { fqdn := record.fqdn, recordType := "SOA",
                   message := "Invalid SOA record format" }
  | some _ => none

/-! ### Claim-side and amended-side TTL resolution (claim C1) -/

/-- TTL precedence exactly as claim C1 states it, with its unnamed fallback
constant as a parameter: an explicit positive record TTL wins; otherwise the
zone default TTL; otherwise, for NS records at the zone apex, the zone SOA
TTL; otherwise the fallback constant. -/
def claimOrderDefaultTTL (fallback : Int) (key : RecordKey)
    (zonesByName : List (String × Zone)) (r : Record) : Int :=
  if r.zoneDefaultTTL ≠ 0 then r.zoneDefaultTTL
  else if key.recordType = "NS" ∧ r.name = "@" then
    match lookupZone zonesByName key.zoneName with
    | some z => if z.soaTTL ≠ 0 then z.soaTTL else fallback
    | none => fallback
  else fallback

/-- Claim C1's per-record precedence (see `claimOrderDefaultTTL`). -/
def claimOrderTTL (fallback : Int) (key : RecordKey)
    (zonesByName : List (String × Zone)) (r : Record) : Int :=
  match r.ttl with
  | some t => if t > 0 then t else claimOrderDefaultTTL fallback key zonesByName r
  | none => claimOrderDefaultTTL fallback key zonesByName r

/-- The explicit-TTL clause of the amended claim: a positive explicit record
TTL, if any. -/
def explicitTTL (r : Record) : Option Int :=
  match r.ttl with
  | some t => if t > 0 then some t else none
  | none => none

/-- The apex-NS clause of the amended claim: for an NS record named `@`, the
positive SOA TTL of the (found) owning zone, if any. -/
def apexNSSoaTTL (key : RecordKey) (zonesByName : List (String × Zone))
    (r : Record) : Option Int :=
  if key.recordType = "NS" ∧ r.name = "@" then
    match lookupZone zonesByName key.zoneName with
    | some z => if z.soaTTL > 0 then some z.soaTTL else none
    | none => none
  else none

/-- The amended per-record precedence: explicit positive TTL; otherwise, for
apex NS records, the zone SOA TTL when positive; otherwise the zone default
TTL (which may itself be zero — there is no further fallback constant). -/
def amendedOrderTTL (key : RecordKey) (zonesByName : List (String × Zone))
    (r : Record) : Int :=
  (explicitTTL r).getD ((apexNSSoaTTL key zonesByName r).getD r.zoneDefaultTTL)

/-- First nonzero element of a TTL list, `0` when there is none: the amended
description of how the group TTL is chosen. -/
def firstNonzero : List Int → Int
  | [] => 0
  | t :: ts => if t ≠ 0 then t else firstNonzero ts

/-- The suffix following the first nonzero element: exactly the records whose
resolved TTL is compared against the established group TTL. -/
def afterFirstNonzero : List Int → List Int
  | [] => []
  | t :: ts => if t ≠ 0 then ts else afterFirstNonzero ts

/-! ### Concrete inputs for the counterexamples -/

/-- Apex NS comparison unit of zone `example.com` in view `default`. -/
def nsApexKey : RecordKey :=
  { fqdn := "example.com.", recordType := "NS", zoneName := "example.com",
    viewName := "default" }

/-- Apex NS record with no explicit TTL and zone default TTL 300. -/
def nsApexRecord : Record :=
  { rtype := "NS", name := "@", fqdn := "example.com.",
    value := "ns1.example.com.", ttl := none, zoneName := "example.com",
    viewName := "default", zoneDefaultTTL := 300 }

/-- Zone table mapping `example.com` to SOA TTL 900 and default TTL 300. -/
def exampleZones : List (String × Zone) :=
  [("example.com", { name := "example.com", defaultTTL := 300, soaTTL := 900 })]

/-- An A-record comparison unit of the same zone and view. -/
def aKey : RecordKey :=
  { fqdn := "www.example.com.", recordType := "A", zoneName := "example.com",
    viewName := "default" }

/-- A record whose TTL resolves to 0 (no explicit TTL, zone default 0). -/
def aRecordZeroTTL : Record :=
  { rtype := "A", name := "www", fqdn := "www.example.com.",
    value := "192.0.2.1", ttl := none, zoneName := "example.com",
    viewName := "default", zoneDefaultTTL := 0 }

/-- A record of the same unit with explicit TTL 500. -/
def aRecord500TTL : Record :=
  { rtype := "A", name := "www", fqdn := "www.example.com.",
    value := "192.0.2.2", ttl := some 500, zoneName := "example.com",
    viewName := "default", zoneDefaultTTL := 0 }

/-- A TTL-only discrepancy on a record type outside the generator's `switch`
(claim C7's quantification includes it). -/
def txtTTLOnlyDisc : Discrepancy :=
  { fqdn := "www.example.com.", recordType := "TXT",
    zoneName := "example.com", expected := .strs ["hello"],
    actual := .strs ["hello"], expectedTTL := 7200, actualTTL := 3600,
    server := "ns1" }

/-- A TTL-only discrepancy on a supported type with empty value lists. -/
def emptyTTLOnlyDisc : Discrepancy :=
  { fqdn := "www.example.com.", recordType := "A",
    zoneName := "example.com", expected := .strs [], actual := .strs [],
    expectedTTL := 7200, actualTTL := 3600, server := "ns1" }

/-- The value-mismatch discrepancy of the spec's worked example (§8). -/
def aMismatchDisc : Discrepancy :=
  { fqdn := "www.example.com.", recordType := "A",
    zoneName := "example.com", expected := .strs ["192.0.2.10"],
    actual := .strs ["192.0.2.2"], expectedTTL := 3600, actualTTL := 3600,
    server := "ns1" }

/-- Two transferred A records sharing one `(FQDN, type)` key. -/
def axfrRR1 : AxfrRR :=
  { name := "w.example.com.", rtypeStr := "A", value := "192.0.2.1",
    ttl := 300 }

/-- The second transferred record with the same key as `axfrRR1`. -/
def axfrRR2 : AxfrRR :=
  { name := "w.example.com.", rtypeStr := "A", value := "192.0.2.2",
    ttl := 300 }

/-- A TTL-only discrepancy on a supported record type. -/
def aTTLOnlyDisc : Discrepancy :=
  { fqdn := "www.example.com.", recordType := "A", zoneName := "example.com",
    expected := .strs ["192.0.2.7"], actual := .strs ["192.0.2.7"],
    expectedTTL := 7200, actualTTL := 3600, server := "ns1" }

/-- Whether a script line is one of the four `update` command forms the
generator can emit. -/
def isUpdateCmd : NSUpdateCmd → Bool
  | .updateDelete _ _ _ => true
  | .updateAdd _ _ _ _ => true
  | .deleteSOA _ => true
  | .addSOA _ _ _ => true
  | _ => false

/-- Whether a script line is a `server` or `zone` preamble directive. -/
def isPreamble : NSUpdateCmd → Bool
  | .serverDirective _ => true
  | .zoneDirective _ => true
  | _ => false

/-! ## Theorems -/

theorem foldl_bumpCount (a : List String) (m : String → Nat) (s : String) :
    (a.foldl bumpCount m) s = m s + a.count s := by
  induction a generalizing m with
  | nil => simp
  | cons v vs ih =>
    simp only [List.foldl_cons, ih, bumpCount, List.count_cons]
    by_cases h : s = v
    · simp [h]; omega
    · simp [h, Ne.symm h]

theorem consumeCounts_of_le (b : List String) (m : String → Nat)
    (h : ∀ s, b.count s ≤ m s) :
    consumeCounts m b = some (fun s => m s - b.count s) := by
  induction b generalizing m with
  | nil => simp [consumeCounts]
  | cons v vs ih =>
    have hv : ¬ m v = 0 := by
      have := h v
      simp [List.count_cons] at this
      omega
    rw [consumeCounts, if_neg hv]
    rw [ih]
    · congr 1
      funext s
      by_cases hs : s = v
      · subst hs; simp [List.count_cons]; omega
      · simp [hs, List.count_cons]
    · intro s
      by_cases hs : s = v
      · subst hs
        have := h s
        simp [List.count_cons] at this ⊢
        omega
      · have := h s
        simp [hs, List.count_cons] at this ⊢
        omega

theorem consumeCounts_count_le (b : List String) (m m' : String → Nat)
    (h : consumeCounts m b = some m') : ∀ s, b.count s ≤ m s := by
  induction b generalizing m with
  | nil => intro s; simp
  | cons v vs ih =>
    intro s
    rw [consumeCounts] at h
    by_cases hv : m v = 0
    · simp [hv] at h
    · rw [if_neg hv] at h
      have hle := ih _ h s
      by_cases hs : s = v
      · subst hs
        simp [List.count_cons] at hle ⊢
        omega
      · simp [hs, List.count_cons] at hle ⊢
        omega

theorem stringSlicesEqualUnordered_iff_perm (a b : List String) :
    stringSlicesEqualUnordered a b = true ↔ a.Perm b := by
  constructor
  · intro h
    unfold stringSlicesEqualUnordered at h
    by_cases hlen : a.length ≠ b.length
    · simp [hlen] at h
    · rw [if_neg hlen] at h
      cases hc : consumeCounts (a.foldl bumpCount fun _ => 0) b with
      | none => rw [hc] at h; simp at h
      | some m' =>
        rw [hc] at h
        simp only [] at h
        have hle : ∀ s, b.count s ≤ a.count s := by
          intro s
          have hh := consumeCounts_count_le b _ m' hc s
          rwa [foldl_bumpCount, Nat.zero_add] at hh
        have heq := consumeCounts_of_le b (a.foldl bumpCount fun _ => 0)
          (by intro s; rw [foldl_bumpCount, Nat.zero_add]; exact hle s)
        rw [hc] at heq
        have hm' := Option.some.inj heq
        have hall : ∀ s ∈ a, m' s = 0 := by
          intro s hs
          have := List.all_eq_true.mp h s hs
          simpa using this
        refine List.perm_iff_count.mpr ?_
        intro s
        by_cases hs : s ∈ a
        · have h0 := hall s hs
          rw [hm'] at h0
          simp only [foldl_bumpCount, Nat.zero_add] at h0
          have := hle s
          omega
        · have h0 : a.count s = 0 := List.count_eq_zero_of_not_mem hs
          have := hle s
          omega
  · intro hperm
    have hcount := List.perm_iff_count.mp hperm
    have hlen := hperm.length_eq
    unfold stringSlicesEqualUnordered
    rw [if_neg (by omega)]
    have heq := consumeCounts_of_le b (a.foldl bumpCount fun _ => 0)
      (by intro s; rw [foldl_bumpCount, Nat.zero_add, hcount s])
    rw [heq]
    simp only []
    refine List.all_eq_true.mpr ?_
    intro s _
    simp [foldl_bumpCount, hcount s]

/-- C4: value-set comparison is order-independent — permuting either the
expected or the actual list never changes `stringSlicesEqualUnordered`, hence
never changes the Discrepancy-versus-Success branch condition, and the test
succeeds exactly when the two lists are equal as multisets. -/
theorem unordered_equality_perm_invariant (a a' b b' : List String)
    (ettl attl : Int) (ha : a.Perm a') (hb : b.Perm b') :
    stringSlicesEqualUnordered a b = stringSlicesEqualUnordered a' b'
    ∧ (stringSlicesEqualUnordered a b = true
        ↔ Multiset.ofList a = Multiset.ofList b)
    ∧ comparisonMismatch a b ettl attl = comparisonMismatch a' b' ettl attl := by
  have key : stringSlicesEqualUnordered a b = stringSlicesEqualUnordered a' b' := by
    rw [Bool.eq_iff_iff, stringSlicesEqualUnordered_iff_perm,
      stringSlicesEqualUnordered_iff_perm]
    exact ⟨fun h => ha.symm.trans (h.trans hb), fun h => ha.trans (h.trans hb.symm)⟩
  refine ⟨key, ?_, ?_⟩
  · rw [stringSlicesEqualUnordered_iff_perm]
    exact ⟨fun h => Multiset.coe_eq_coe.mpr h, fun h => Multiset.coe_eq_coe.mp h⟩
  · unfold comparisonMismatch
    rw [key]

/-- Witness for C4 at concrete permuted lists. -/
theorem unordered_equality_perm_invariant_witness :
    stringSlicesEqualUnordered ["x", "y"] ["y", "x"]
        = stringSlicesEqualUnordered ["y", "x"] ["x", "y"]
    ∧ (stringSlicesEqualUnordered ["x", "y"] ["y", "x"] = true
        ↔ Multiset.ofList ["x", "y"] = Multiset.ofList ["y", "x"])
    ∧ comparisonMismatch ["x", "y"] ["y", "x"] 300 300
        = comparisonMismatch ["y", "x"] ["x", "y"] 300 300 :=
  unordered_equality_perm_invariant ["x", "y"] ["y", "x"] ["y", "x"] ["x", "y"]
    300 300 (by decide) (by decide)

theorem expectedTTLStep_foldl_nonzero (ts : List Int) (acc : Int) (w : Bool)
    (h : acc ≠ 0) :
    ts.foldl expectedTTLStep (acc, w)
      = (acc, w || ts.any (fun t => t != acc)) := by
  induction ts generalizing w with
  | nil => simp
  | cons t ts ih =>
    simp only [List.foldl_cons, List.any_cons]
    by_cases ht : acc = t
    · have hstep : expectedTTLStep (acc, w) t = (acc, w) := by
        simp [expectedTTLStep, h, ht]
      rw [hstep, ih w]
      simp [ht]
    · have hstep : expectedTTLStep (acc, w) t = (acc, true) := by
        simp [expectedTTLStep, h, ht]
      rw [hstep, ih true]
      simp [Ne.symm ht]

theorem expectedTTLStep_foldl_zero (ts : List Int) :
    ts.foldl expectedTTLStep (0, false)
      = (firstNonzero ts,
         (afterFirstNonzero ts).any (fun t => t != firstNonzero ts)) := by
  induction ts with
  | nil => simp [firstNonzero, afterFirstNonzero]
  | cons t ts ih =>
    simp only [List.foldl_cons]
    have hstep : expectedTTLStep (0, false) t = (t, false) := by
      simp [expectedTTLStep]
    rw [hstep]
    by_cases ht : t = 0
    · subst ht
      rw [ih]
      simp [firstNonzero, afterFirstNonzero]
    · rw [expectedTTLStep_foldl_nonzero ts t false ht]
      simp [firstNonzero, afterFirstNonzero, ht]

theorem resolveRecordTTL_eq_amended (key : RecordKey)
    (zones : List (String × Zone)) (r : Record) :
    resolveRecordTTL key zones r = amendedOrderTTL key zones r := by
  have hd : resolveDefaultTTL key zones r
      = (apexNSSoaTTL key zones r).getD r.zoneDefaultTTL := by
    unfold resolveDefaultTTL apexNSSoaTTL
    by_cases h : key.recordType = "NS" ∧ r.name = "@"
    · simp only [h, if_true]
      cases lookupZone zones key.zoneName with
      | none => simp
      | some z =>
        by_cases hz : z.soaTTL > 0
        · simp [hz]
        · simp [hz]
    · simp [h]
  unfold resolveRecordTTL amendedOrderTTL explicitTTL
  cases r.ttl with
  | none => simpa using hd
  | some t =>
    by_cases ht : t > 0
    · simp [ht]
    · simpa [ht] using hd

/-- C1 counterexample: the claim's precedence puts the zone default TTL ahead
of the apex-NS SOA TTL, and adds a fallback constant; the code resolves the
apex-NS record to the SOA TTL 900 although the zone default 300 is set, while
the claimed order yields 300 for every choice of fallback constant.  The
claim's tie-breaking also fails: when the first record of a group resolves
to TTL 0 and a later one to 500, the group TTL becomes 500 — the first
record's value does not win — and no warning is recorded. -/
theorem ttl_resolution_claim_refuted :
    resolveRecordTTL nsApexKey exampleZones nsApexRecord = 900
    ∧ (fun fallback =>
        claimOrderTTL fallback nsApexKey exampleZones nsApexRecord)
        = (fun _ => (300 : Int))
    ∧ resolveRecordTTL aKey exampleZones aRecordZeroTTL = 0
    ∧ expectedTTLOf aKey exampleZones [aRecordZeroTTL, aRecord500TTL] = 500
    ∧ ttlWarningOf aKey exampleZones [aRecordZeroTTL, aRecord500TTL] = false := by
  refine ⟨by decide, funext fun fallback => rfl, by decide, by decide,
    by decide⟩

/-- C1 (amended): per record, an explicit positive TTL wins; otherwise, for
NS records at the zone apex, the zone SOA TTL when the zone is known and its
SOA TTL is positive; otherwise the zone default TTL (no further fallback
constant).  Among grouped records the first nonzero resolved TTL wins, and
the multiple-TTL warning fires exactly when a record after that point
resolves to a different TTL. -/
theorem ttl_resolution_amended (key : RecordKey)
    (zones : List (String × Zone)) (records : List Record) :
    (∀ r, resolveRecordTTL key zones r = amendedOrderTTL key zones r)
    ∧ expectedTTLOf key zones records
        = firstNonzero (records.map (resolveRecordTTL key zones))
    ∧ ttlWarningOf key zones records
        = (afterFirstNonzero (records.map (resolveRecordTTL key zones))).any
            (fun t =>
              t != firstNonzero (records.map (resolveRecordTTL key zones))) := by
  refine ⟨fun r => resolveRecordTTL_eq_amended key zones r, ?_, ?_⟩
  · unfold expectedTTLOf
    rw [expectedTTLStep_foldl_zero]
  · unfold ttlWarningOf
    rw [expectedTTLStep_foldl_zero]

theorem hasSuffixDot_append_dot (s : String) :
    hasSuffixDot (s ++ ".") = true := by
  unfold hasSuffixDot
  rw [String.data_append]
  have hdot : (".").data = ['.'] := rfl
  rw [hdot, List.getLast?_concat]
  rfl

/-- C5: CNAME zone-qualification is idempotent — a value already carrying the
trailing root label is unchanged, every qualified value carries it, so
applying the qualification twice equals applying it once and the zone suffix
is never appended twice. -/
theorem cname_qualification_idempotent (zoneName value : String) :
    qualifyCNAMEValue zoneName (qualifyCNAMEValue zoneName value)
        = qualifyCNAMEValue zoneName value
    ∧ (hasSuffixDot value = true →
        qualifyCNAMEValue zoneName value = value) := by
  constructor
  · by_cases h : hasSuffixDot value = true
    · unfold qualifyCNAMEValue
      simp [h]
    · have h2 : hasSuffixDot (qualifyCNAMEValue zoneName value) = true := by
        unfold qualifyCNAMEValue
        rw [if_pos h]
        by_cases hz : trimRightDots zoneName ≠ ""
        · rw [if_pos hz]
          exact hasSuffixDot_append_dot _
        · rw [if_neg hz]
          exact hasSuffixDot_append_dot _
      generalize hq : qualifyCNAMEValue zoneName value = w at h2 ⊢
      unfold qualifyCNAMEValue
      simp [h2]
  · intro h
    unfold qualifyCNAMEValue
    simp [h]

/-- Witness for C5 at a concrete zone and unqualified value. -/
theorem cname_qualification_idempotent_witness :
    qualifyCNAMEValue "example.com" (qualifyCNAMEValue "example.com" "www")
        = qualifyCNAMEValue "example.com" "www"
    ∧ (hasSuffixDot "www" = true →
        qualifyCNAMEValue "example.com" "www" = "www") :=
  cname_qualification_idempotent "example.com" "www"

/-- C2: a comparison unit whose record type is not in `dns.StringToType`
yields exactly one Discrepancy with message "Unknown record type" and issues
zero DNS queries. -/
theorem unknown_type_single_discrepancy (key : RecordKey)
    (records : List Record) (servers : List String) (recordSuccessful : Bool)
    (zonesByName : List (String × Zone))
    (oracle : String → Nat → AttemptResult)
    (h : knownRecordType key.recordType = false) :
    validateRecordsForFQDN key records servers recordSuccessful zonesByName
        oracle
      = ([{ fqdn := key.fqdn, recordType := key.recordType,
            zoneName := key.zoneName,
            expected := .strs (expectedValuesOf key records),
            message := "Unknown record type" }], [], 0) := by
  unfold validateRecordsForFQDN
  simp [h]

/-- Witness for C2: record type "FOO" is unknown; no query is issued even
though a server is configured. -/
theorem unknown_type_single_discrepancy_witness :
    validateRecordsForFQDN
        { fqdn := "x.example.com.", recordType := "FOO",
          zoneName := "example.com", viewName := "default" }
        [] ["ns1"] false [] (fun _ _ => .exchangeErr "unused")
      = ([{ fqdn := "x.example.com.", recordType := "FOO",
            zoneName := "example.com", expected := .strs [],
            message := "Unknown record type" }], [], 0) :=
  unknown_type_single_discrepancy
    { fqdn := "x.example.com.", recordType := "FOO",
      zoneName := "example.com", viewName := "default" }
    [] ["ns1"] false [] (fun _ _ => .exchangeErr "unused") rfl

/-- C3: the per-server failure outcome is classified into exactly one of
three Discrepancies.  With `(resp, err)` the result of the retried query:
a name-error response (NXDOMAIN) yields "Record missing (NXDOMAIN)"; any
other retry-exhaustion error yields "DNS query error" with the error
appended; a successful response with an empty answer section yields
"Record missing". -/
theorem per_server_failure_classification (key : RecordKey)
    (expectedValues : List String) (expectedTTL : Int)
    (recordSuccessful : Bool) (attempts : Nat → AttemptResult)
    (server : String) :
    (∀ e m, (queryDNSWithRetry attempts 3).1 = (some m, some e) →
      m.rcode = rcodeNameError →
      perServerValidate key expectedValues expectedTTL recordSuccessful
          attempts server
        = ([{ fqdn := key.fqdn, recordType := key.recordType,
              zoneName := key.zoneName, expected := .strs expectedValues,
              actual := .strs [], expectedTTL := expectedTTL,
              server := server, message := "Record missing (NXDOMAIN)" }],
           [], (queryDNSWithRetry attempts 3).2))
    ∧ (∀ e, (queryDNSWithRetry attempts 3).1.2 = some e →
      (∀ m, (queryDNSWithRetry attempts 3).1.1 = some m →
        m.rcode ≠ rcodeNameError) →
      perServerValidate key expectedValues expectedTTL recordSuccessful
          attempts server
        = ([{ fqdn := key.fqdn, recordType := key.recordType,
              zoneName := key.zoneName, expected := .strs expectedValues,
              server := server, message := "DNS query error: " ++ e }],
           [], (queryDNSWithRetry attempts 3).2))
    ∧ (∀ m, (queryDNSWithRetry attempts 3).1 = (some m, none) →
      m.answer = [] →
      perServerValidate key expectedValues expectedTTL recordSuccessful
          attempts server
        = ([{ fqdn := key.fqdn, recordType := key.recordType,
              zoneName := key.zoneName, expected := .strs expectedValues,
              actual := .strs [], expectedTTL := expectedTTL,
              server := server, message := "Record missing" }],
           [], (queryDNSWithRetry attempts 3).2)) := by
  rcases hQ : queryDNSWithRetry attempts 3 with ⟨⟨respOpt, errOpt⟩, n⟩
  refine ⟨?_, ?_, ?_⟩
  · intro e m hq hrc
    dsimp only at hq
    injection hq with hq1 hq2
    subst hq1; subst hq2
    unfold perServerValidate
    rw [hQ]
    simp [serverOutcome, hrc]
  · intro e hq hnx
    dsimp only at hq hnx
    subst hq
    unfold perServerValidate
    rw [hQ]
    cases respOpt with
    | none => simp [serverOutcome]
    | some m =>
      have hm := hnx m rfl
      simp [serverOutcome, hm]
  · intro m hq hans
    dsimp only at hq
    injection hq with hq1 hq2
    subst hq1; subst hq2
    unfold perServerValidate
    rw [hQ]
    simp [serverOutcome, hans]

/-- Witness for C3: a server that answers NXDOMAIN on all three attempts is
classified as "Record missing (NXDOMAIN)" after three queries. -/
theorem per_server_failure_classification_witness :
    perServerValidate
        { fqdn := "x.example.com.", recordType := "A",
          zoneName := "example.com", viewName := "default" }
        ["192.0.2.1"] 300 false
        (fun _ => .response { rcode := 3, answer := [] }) "ns1"
      = ([{ fqdn := "x.example.com.", recordType := "A",
            zoneName := "example.com", expected := .strs ["192.0.2.1"],
            actual := .strs [], expectedTTL := 300, server := "ns1",
            message := "Record missing (NXDOMAIN)" }], [], 3) :=
  (per_server_failure_classification
      { fqdn := "x.example.com.", recordType := "A",
        zoneName := "example.com", viewName := "default" }
      ["192.0.2.1"] 300 false
      (fun _ => .response { rcode := 3, answer := [] }) "ns1").1
    ("DNS query failed with Rcode 3") { rcode := 3, answer := [] } rfl rfl

/-- C6: a comparison unit lacking zone or view information, or whose pair
maps to no authoritative server, is skipped: no Discrepancy, no Success, and
zero DNS queries — there is no fallback to all known servers. -/
theorem unit_skipped_without_authority (nameservers : List Nameserver)
    (key : RecordKey) (records : List Record) (recordSuccessful : Bool)
    (zonesByName : List (String × Zone))
    (oracle : String → Nat → AttemptResult)
    (h : key.zoneName = "" ∨ key.viewName = ""
        ∨ lookupServers (buildZoneViewMap nameservers)
            (zoneViewKey key.zoneName key.viewName) = []) :
    processUnit nameservers key records recordSuccessful zonesByName oracle
      = ([], [], 0) := by
  unfold processUnit
  rcases h with h | h | h
  · simp [h]
  · simp [h]
  · by_cases hz : key.zoneName ≠ "" ∧ key.viewName ≠ ""
    · simp [hz, h]
    · simp [hz]

/-- Witness for C6: with no nameserver inventory the (zone, view) pair of a
fully specified unit has no server, and the unit produces nothing. -/
theorem unit_skipped_without_authority_witness :
    processUnit []
        { fqdn := "x.example.com.", recordType := "A",
          zoneName := "example.com", viewName := "default" }
        [] false [] (fun _ _ => .exchangeErr "unused")
      = ([], [], 0) :=
  unit_skipped_without_authority []
    { fqdn := "x.example.com.", recordType := "A",
      zoneName := "example.com", viewName := "default" }
    [] false [] (fun _ _ => .exchangeErr "unused") (Or.inr (Or.inr rfl))

/-- C10: every inventory value with exactly 7 white-space-separated fields
parses to a non-nil `SOARecord`, so it never yields the "Invalid SOA record
format" Discrepancy; a numeric field without leading digits silently becomes
0 via `parseUint32`. -/
theorem soa_seven_fields_parse (record : Record)
    (h : (goFields record.value).length = 7) :
    (parseSOARecord record.value).isSome = true
    ∧ soaFormatCheck record = none
    ∧ (∀ s : String, s.data.takeWhile Char.isDigit = [] →
        parseUint32 s = 0) := by
  have hp : parseSOARecord record.value
      = some { mname := (goFields record.value).getD 0 "",
               rname := (goFields record.value).getD 1 "",
               serial := parseUint32 ((goFields record.value).getD 2 ""),
               refresh := parseUint32 ((goFields record.value).getD 3 ""),
               retry := parseUint32 ((goFields record.value).getD 4 ""),
               expire := parseUint32 ((goFields record.value).getD 5 ""),
               minimum := parseUint32 ((goFields record.value).getD 6 "") } := by
    unfold parseSOARecord
    simp [h]
  refine ⟨?_, ?_, ?_⟩
  · rw [hp]
    rfl
  · unfold soaFormatCheck
    rw [hp]
  · intro s hs
    unfold parseUint32
    simp [hs]

/-- Witness for C10 at a 7-field value with non-numeric numeric fields. -/
theorem soa_seven_fields_parse_witness :
    (parseSOARecord
        "ns1.example.com. hostmaster.example.com. abc def ghi jkl mno").isSome
      = true
    ∧ soaFormatCheck
        { rtype := "SOA", name := "@", fqdn := "example.com.",
          value := "ns1.example.com. hostmaster.example.com. abc def ghi jkl mno",
          ttl := none, zoneName := "example.com", viewName := "default",
          zoneDefaultTTL := 3600 } = none
    ∧ (∀ s : String, s.data.takeWhile Char.isDigit = [] →
        parseUint32 s = 0) :=
  soa_seven_fields_parse
    { rtype := "SOA", name := "@", fqdn := "example.com.",
      value := "ns1.example.com. hostmaster.example.com. abc def ghi jkl mno",
      ttl := none, zoneName := "example.com", viewName := "default",
      zoneDefaultTTL := 3600 } (by decide)

/-- C7 counterexample: the claim quantifies over every Discrepancy with
multiset-equal value lists and differing TTLs, but a TXT-typed one falls out
of the generator's `switch` and a supported-type one with empty value lists
loops over nothing — both emit zero commands. -/
theorem ttl_only_script_claim_refuted :
    stringSlicesEqualUnordered ["hello"] ["hello"] = true
    ∧ txtTTLOnlyDisc.expectedTTL ≠ txtTTLOnlyDisc.actualTTL
    ∧ scriptForDiscrepancy txtTTLOnlyDisc = []
    ∧ stringSlicesEqualUnordered [] [] = true
    ∧ emptyTTLOnlyDisc.expectedTTL ≠ emptyTTLOnlyDisc.actualTTL
    ∧ scriptForDiscrepancy emptyTTLOnlyDisc = [] := by
  decide

/-- C7 (amended): for every Discrepancy of a supported record type (A, AAAA,
CNAME, PTR, NS) with list payloads, multiset-equal values and differing TTLs,
the generator emits delete followed by add at the ExpectedTTL for every
expected value, hence never zero commands when the expected list is
non-empty. -/
theorem ttl_only_script_amended (d : Discrepancy) (es as : List String)
    (he : d.expected = .strs es) (ha : d.actual = .strs as)
    (ht : supportedUpdateType d.recordType = true)
    (heq : stringSlicesEqualUnordered es as = true)
    (httl : d.expectedTTL ≠ d.actualTTL) :
    scriptForDiscrepancy d
      = (es.map fun val =>
          [NSUpdateCmd.updateDelete d.fqdn d.recordType val,
           NSUpdateCmd.updateAdd d.fqdn d.expectedTTL d.recordType val]).flatten
    ∧ (es ≠ [] → scriptForDiscrepancy d ≠ []) := by
  have hmain : scriptForDiscrepancy d
      = (es.map fun val =>
          [NSUpdateCmd.updateDelete d.fqdn d.recordType val,
           NSUpdateCmd.updateAdd d.fqdn d.expectedTTL d.recordType val]).flatten := by
    unfold scriptForDiscrepancy
    rw [he, ha]
    simp [ht, heq, httl]
  refine ⟨hmain, fun hne => ?_⟩
  rw [hmain]
  cases es with
  | nil => exact absurd rfl hne
  | cons v vs => simp

/-- Witness for C7 (amended) at a concrete supported-type TTL-only
discrepancy. -/
theorem ttl_only_script_amended_witness :
    scriptForDiscrepancy aTTLOnlyDisc
      = ((["192.0.2.7"].map fun val =>
          [NSUpdateCmd.updateDelete "www.example.com." "A" val,
           NSUpdateCmd.updateAdd "www.example.com." 7200 "A" val]).flatten)
    ∧ ((["192.0.2.7"] : List String) ≠ [] →
        scriptForDiscrepancy aTTLOnlyDisc ≠ []) :=
  ttl_only_script_amended aTTLOnlyDisc ["192.0.2.7"] ["192.0.2.7"] rfl rfl rfl
    (by decide) (by decide)

theorem send_not_mem_scriptForDiscrepancy (d : Discrepancy) :
    NSUpdateCmd.send ∉ scriptForDiscrepancy d := by
  unfold scriptForDiscrepancy
  cases hd : d.expected with
  | nil => simp
  | str s => split <;> simp
  | soa s => split <;> simp
  | strs es =>
    dsimp only
    split
    · split
      · simp [List.mem_flatten, List.mem_map]
      · simp [List.mem_append, List.mem_map, List.mem_filter]
    · split <;> simp

theorem scriptForServer_send_count (ds : List Discrepancy) (server : String) :
    (scriptForServer ds server).count NSUpdateCmd.send = 1 := by
  unfold scriptForServer
  rw [List.count_append]
  have h0 : ((ds.filter fun x => x.server == server).map
      scriptForDiscrepancy).flatten.count NSUpdateCmd.send = 0 := by
    rw [List.count_eq_zero]
    intro hmem
    rw [List.mem_flatten] at hmem
    obtain ⟨l, hl, hcl⟩ := hmem
    rw [List.mem_map] at hl
    obtain ⟨d, _, rfl⟩ := hl
    exact send_not_mem_scriptForDiscrepancy d hcl
  rw [h0]
  simp

/-- C8 counterexample: the server file generated for the spec's worked
example begins directly with an `update delete` — no `server`/`zone`
preamble is ever emitted, grouping is per server only, and a single `send`
terminates the whole server file instead of one per zone block. -/
theorem script_grouping_claim_refuted :
    scriptForServer [aMismatchDisc] "ns1"
      = [NSUpdateCmd.updateDelete "www.example.com." "A" "192.0.2.2",
         NSUpdateCmd.updateAdd "www.example.com." 3600 "A" "192.0.2.10",
         NSUpdateCmd.send]
    ∧ (scriptForServer [aMismatchDisc] "ns1").all
        (fun c => !(isPreamble c)) = true := by
  decide

/-- C8 (amended): output is grouped per server only — each server file is the
concatenation of that server's discrepancy blocks terminated by exactly one
trailing `send` (no `server`/`zone` preamble); a supported list-valued
discrepancy that is not TTL-only contributes one `delete` per actual value
matching no expected value and one `add` at the ExpectedTTL per expected
value matching no actual value, the matching being case-insensitive after
trimming. -/
theorem script_grouping_amended (ds : List Discrepancy) (server : String)
    (d : Discrepancy) (es as : List String)
    (he : d.expected = .strs es) (ha : d.actual = .strs as)
    (ht : supportedUpdateType d.recordType = true)
    (hno : ¬ (stringSlicesEqualUnordered es as = true
        ∧ d.expectedTTL ≠ d.actualTTL)) :
    (scriptForServer ds server).getLast? = some NSUpdateCmd.send
    ∧ (scriptForServer ds server).count NSUpdateCmd.send = 1
    ∧ scriptForServer ds server
        = ((ds.filter fun x => x.server == server).map
            scriptForDiscrepancy).flatten ++ [NSUpdateCmd.send]
    ∧ scriptForDiscrepancy d
        = (as.filter fun val => ¬ stringInSlice val es).map
            (NSUpdateCmd.updateDelete d.fqdn d.recordType)
          ++ (es.filter fun val => ¬ stringInSlice val as).map
            (fun val =>
              NSUpdateCmd.updateAdd d.fqdn d.expectedTTL d.recordType val) := by
  refine ⟨?_, scriptForServer_send_count ds server, rfl, ?_⟩
  · unfold scriptForServer
    exact List.getLast?_concat _
  · unfold scriptForDiscrepancy
    rw [he, ha]
    simp only [ht, if_true]
    rw [if_neg hno]

/-- Witness for C8 (amended) at the spec's worked example. -/
theorem script_grouping_amended_witness :
    (scriptForServer [aMismatchDisc] "ns1").getLast? = some NSUpdateCmd.send
    ∧ (scriptForServer [aMismatchDisc] "ns1").count NSUpdateCmd.send = 1
    ∧ scriptForServer [aMismatchDisc] "ns1"
        = (([aMismatchDisc].filter fun x => x.server == "ns1").map
            scriptForDiscrepancy).flatten ++ [NSUpdateCmd.send]
    ∧ scriptForDiscrepancy aMismatchDisc
        = ((["192.0.2.2"].filter fun val =>
              ¬ stringInSlice val ["192.0.2.10"]).map
            (NSUpdateCmd.updateDelete "www.example.com." "A"))
          ++ ((["192.0.2.10"].filter fun val =>
              ¬ stringInSlice val ["192.0.2.2"]).map
            (fun val => NSUpdateCmd.updateAdd "www.example.com." 3600 "A" val)) :=
  script_grouping_amended [aMismatchDisc] "ns1" aMismatchDisc
    ["192.0.2.10"] ["192.0.2.2"] rfl rfl rfl (by decide)

theorem keysOf_mapInsert {α : Type} (m : List (String × α)) (k : String)
    (v : α) :
    keysOf (mapInsert m k v)
      = if m.any (fun p => p.1 == k) then keysOf m else keysOf m ++ [k] := by
  unfold mapInsert keysOf
  by_cases h : m.any (fun p => p.1 == k)
  · rw [if_pos h, if_pos h, List.map_map]
    apply List.map_congr_left
    intro p _
    by_cases hp : p.1 = k <;> simp [hp]
  · rw [if_neg h, if_neg h, List.map_append]
    rfl

theorem mem_keysOf_mapInsert {α : Type} (m : List (String × α)) (k : String)
    (v : α) (k' : String) :
    k' ∈ keysOf (mapInsert m k v) ↔ k' ∈ keysOf m ∨ k' = k := by
  rw [keysOf_mapInsert]
  by_cases h : m.any (fun p => p.1 == k)
  · rw [if_pos h]
    constructor
    · exact Or.inl
    · rintro (hm | rfl)
      · exact hm
      · rw [List.any_eq_true] at h
        obtain ⟨p, hp, hpk⟩ := h
        unfold keysOf
        rw [List.mem_map]
        exact ⟨p, hp, by simpa using hpk⟩
  · rw [if_neg h, List.mem_append]
    simp

theorem nodup_keysOf_mapInsert {α : Type} (m : List (String × α)) (k : String)
    (v : α) (h : (keysOf m).Nodup) : (keysOf (mapInsert m k v)).Nodup := by
  rw [keysOf_mapInsert]
  by_cases hh : m.any (fun p => p.1 == k)
  · rw [if_pos hh]
    exact h
  · rw [if_neg hh, List.nodup_append]
    refine ⟨h, List.nodup_singleton k, ?_⟩
    intro a ha hb
    rw [List.mem_singleton] at hb
    subst hb
    unfold keysOf at ha
    rw [List.mem_map] at ha
    obtain ⟨p, hp, hpk⟩ := ha
    apply hh
    rw [List.any_eq_true]
    exact ⟨p, hp, by simpa using hpk⟩

theorem mem_mapInsert {α : Type} (m : List (String × α)) (k : String) (v : α)
    (kv : String × α) (h : kv ∈ mapInsert m k v) : kv ∈ m ∨ kv = (k, v) := by
  unfold mapInsert at h
  by_cases hh : m.any (fun p => p.1 == k)
  · rw [if_pos hh] at h
    rw [List.mem_map] at h
    obtain ⟨p, hp, rfl⟩ := h
    by_cases hpk : (p.1 == k) = true
    · right
      have hk : p.1 = k := by simpa using hpk
      simp [hpk, hk]
    · left
      simpa [hpk] using hp
  · rw [if_neg hh] at h
    rw [List.mem_append] at h
    rcases h with h | h
    · exact Or.inl h
    · right
      simpa using h

theorem foldl_mapInsert_nodup (rrs : List AxfrRR) (m : List (String × AxfrRR))
    (h : (keysOf m).Nodup) :
    (keysOf (rrs.foldl (fun m rr =>
      mapInsert m (fqdnTypeKey rr.name rr.rtypeStr) rr) m)).Nodup := by
  induction rrs generalizing m with
  | nil => exact h
  | cons rr rrs ih => exact ih _ (nodup_keysOf_mapInsert _ _ _ h)

theorem foldl_mapInsert_keyconsistent (rrs : List AxfrRR)
    (m : List (String × AxfrRR))
    (h : ∀ kv ∈ m, kv.1 = fqdnTypeKey kv.2.name kv.2.rtypeStr) :
    ∀ kv ∈ rrs.foldl (fun m rr =>
        mapInsert m (fqdnTypeKey rr.name rr.rtypeStr) rr) m,
      kv.1 = fqdnTypeKey kv.2.name kv.2.rtypeStr := by
  induction rrs generalizing m with
  | nil => exact h
  | cons rr rrs ih =>
    apply ih
    intro kv hkv
    rcases mem_mapInsert _ _ _ _ hkv with hm | heq
    · exact h kv hm
    · rw [heq]

theorem foldl_mapInsert_keys_mono (rrs : List AxfrRR)
    (m : List (String × AxfrRR)) (k : String) (h : k ∈ keysOf m) :
    k ∈ keysOf (rrs.foldl (fun m rr =>
      mapInsert m (fqdnTypeKey rr.name rr.rtypeStr) rr) m) := by
  induction rrs generalizing m with
  | nil => exact h
  | cons rr rrs ih =>
    exact ih _ ((mem_keysOf_mapInsert _ _ _ _).mpr (Or.inl h))

theorem foldl_mapInsert_mem_keys (rrs : List AxfrRR)
    (m : List (String × AxfrRR)) (rr : AxfrRR) (hrr : rr ∈ rrs) :
    fqdnTypeKey rr.name rr.rtypeStr
      ∈ keysOf (rrs.foldl (fun m x =>
          mapInsert m (fqdnTypeKey x.name x.rtypeStr) x) m) := by
  induction rrs generalizing m with
  | nil => cases hrr
  | cons x rrs ih =>
    rcases List.mem_cons.mp hrr with heq | hmem
    · subst heq
      exact foldl_mapInsert_keys_mono rrs _ _
        ((mem_keysOf_mapInsert _ _ _ _).mpr (Or.inr rfl))
    · exact ih _ hmem

theorem countP_fst_eq_count {α : Type} (m : List (String × α)) (k : String) :
    m.countP (fun kv => kv.1 == k) = (keysOf m).count k := by
  rw [List.count_eq_countP]
  unfold keysOf
  rw [List.countP_map]
  rfl

theorem countP_keysOf_eq_one {α : Type} (m : List (String × α)) (k : String)
    (hnd : (keysOf m).Nodup) (hmem : k ∈ keysOf m) :
    m.countP (fun kv => kv.1 == k) = 1 := by
  rw [countP_fst_eq_count]
  have hle := List.nodup_iff_count_le_one.mp hnd k
  have hpos := List.count_pos_iff.mpr hmem
  omega

theorem axfrMissing_countP_aux (em : List (String × Record))
    (am : List (String × AxfrRR)) (zoneName server K : String)
    (hkc : ∀ kv ∈ am, kv.1 = fqdnTypeKey kv.2.name kv.2.rtypeStr) :
    (axfrMissing em am zoneName server).countP
        (fun mr => fqdnTypeKey mr.fqdn mr.recordType == K)
      = am.countP (fun kv => (kv.1 == K) && (mapLookup em kv.1).isNone) := by
  induction am with
  | nil => rfl
  | cons kv am ih =>
    have hk1 : kv.1 = fqdnTypeKey kv.2.name kv.2.rtypeStr := hkc kv (by simp)
    have ihh := ih (fun x hx => hkc x (by simp [hx]))
    unfold axfrMissing at ihh ⊢
    rw [List.filter_cons]
    by_cases hq : (mapLookup em kv.1).isNone = true
    · rw [if_pos hq, List.map_cons, List.countP_cons, ihh, List.countP_cons]
      have hcond : (fqdnTypeKey kv.2.name kv.2.rtypeStr == K)
          = ((kv.1 == K) && (mapLookup em kv.1).isNone) := by
        rw [← hk1]
        simp [hq]
      congr 1
      dsimp only
      rw [hcond]
    · rw [if_neg hq, ihh, List.countP_cons]
      have hz : ((kv.1 == K) && (mapLookup em kv.1).isNone) = false := by
        simp [hq]
      rw [hz]
      simp

theorem axfrMissing_countP (em : List (String × Record))
    (am : List (String × AxfrRR)) (zoneName server K : String)
    (hnd : (keysOf am).Nodup)
    (hkc : ∀ kv ∈ am, kv.1 = fqdnTypeKey kv.2.name kv.2.rtypeStr) :
    (axfrMissing em am zoneName server).countP
        (fun mr => fqdnTypeKey mr.fqdn mr.recordType == K)
      = if (mapLookup em K).isNone = true ∧ K ∈ keysOf am then 1 else 0 := by
  rw [axfrMissing_countP_aux em am zoneName server K hkc]
  by_cases hK : (mapLookup em K).isNone = true
  · have hcongr : am.countP
        (fun kv => (kv.1 == K) && (mapLookup em kv.1).isNone)
        = am.countP (fun kv => kv.1 == K) := by
      apply List.countP_congr
      intro kv hkv
      by_cases hkK : kv.1 = K
      · simp [hkK, hK]
      · simp [hkK]
    rw [hcongr]
    by_cases hmem : K ∈ keysOf am
    · rw [if_pos ⟨hK, hmem⟩]
      exact countP_keysOf_eq_one am K hnd hmem
    · rw [if_neg fun hc => hmem hc.2, countP_fst_eq_count]
      exact List.count_eq_zero_of_not_mem hmem
  · rw [if_neg fun hc => hK hc.1]
    rw [List.countP_eq_zero]
    intro kv hkv
    by_cases hkK : kv.1 = K
    · simp [hkK, hK]
    · simp [hkK]

/-- C9 counterexample: two transferred records sharing one `(FQDN, type)` key
collapse in the actual-records map, so with an empty inventory the orphan
loop emits a single MissingRecord carrying only the second record's value —
the first transferred record, although unmatched, appears zero times, not
exactly once. -/
theorem axfr_missing_claim_refuted :
    (axfrMissing [] (buildActualRecordsMap [axfrRR1, axfrRR2])
        "example.com." "ns1").length = 1
    ∧ mapLookup ([] : List (String × Record))
        (fqdnTypeKey axfrRR1.name axfrRR1.rtypeStr) = none
    ∧ (axfrMissing [] (buildActualRecordsMap [axfrRR1, axfrRR2])
        "example.com." "ns1").all
        (fun mr => mr.value != axfrRR1.value) = true := by
  decide

/-- C9 (amended): in the bulk zone-transfer path, every transferred
`(FQDN, type)` key with no matching inventory key yields exactly one
MissingRecord, a transferred key with a matching inventory key yields none,
and every Discrepancy of the comparison loop stems from an inventory entry —
a transferred-only key never produces one.  Transferred records sharing a key
collapse to the last one before this accounting. -/
theorem axfr_missing_amended (records : List Record) (rrs : List AxfrRR)
    (zoneName server : String) (recordSuccessful : Bool) :
    (∀ rr ∈ rrs,
      (mapLookup (buildExpectedRecordsMap records)
          (fqdnTypeKey rr.name rr.rtypeStr)).isNone = true →
      (axfrMissing (buildExpectedRecordsMap records)
          (buildActualRecordsMap rrs) zoneName server).countP
        (fun mr => fqdnTypeKey mr.fqdn mr.recordType
          == fqdnTypeKey rr.name rr.rtypeStr) = 1)
    ∧ (∀ rr ∈ rrs,
      (mapLookup (buildExpectedRecordsMap records)
          (fqdnTypeKey rr.name rr.rtypeStr)).isSome = true →
      (axfrMissing (buildExpectedRecordsMap records)
          (buildActualRecordsMap rrs) zoneName server).countP
        (fun mr => fqdnTypeKey mr.fqdn mr.recordType
          == fqdnTypeKey rr.name rr.rtypeStr) = 0)
    ∧ (∀ d ∈ (axfrCompareExpected (buildExpectedRecordsMap records)
          (buildActualRecordsMap rrs) zoneName server recordSuccessful).1,
        ∃ kv ∈ buildExpectedRecordsMap records,
          d.fqdn = kv.2.fqdn ∧ d.recordType = kv.2.rtype) := by
  have hnd : (keysOf (buildActualRecordsMap rrs)).Nodup :=
    foldl_mapInsert_nodup rrs [] List.nodup_nil
  have hkc : ∀ kv ∈ buildActualRecordsMap rrs,
      kv.1 = fqdnTypeKey kv.2.name kv.2.rtypeStr :=
    foldl_mapInsert_keyconsistent rrs [] (by intro kv hkv; cases hkv)
  refine ⟨?_, ?_, ?_⟩
  · intro rr hrr hnone
    rw [axfrMissing_countP _ _ _ _ _ hnd hkc]
    rw [if_pos ⟨hnone, foldl_mapInsert_mem_keys rrs [] rr hrr⟩]
  · intro rr hrr hsome
    rw [axfrMissing_countP _ _ _ _ _ hnd hkc]
    rw [if_neg]
    intro hc
    rw [Option.isNone_iff_eq_none] at hc
    rw [Option.isSome_iff_exists] at hsome
    obtain ⟨x, hx⟩ := hsome
    rw [hc.1] at hx
    cases hx
  · intro d hd
    unfold axfrCompareExpected at hd
    rw [List.mem_flatten] at hd
    obtain ⟨l, hl, hdl⟩ := hd
    rw [List.mem_map] at hl
    obtain ⟨kv, hkv, rfl⟩ := hl
    refine ⟨kv, hkv, ?_⟩
    unfold axfrEntryDiscs at hdl
    by_cases hsuf : goHasSuffix kv.2.fqdn zoneName = true
    · rw [if_neg (by simp [hsuf])] at hdl
      cases hlk : mapLookup (buildActualRecordsMap rrs) kv.1 with
      | none =>
        rw [hlk] at hdl
        rw [List.mem_singleton] at hdl
        rw [hdl]
        exact ⟨rfl, rfl⟩
      | some rr =>
        rw [hlk] at hdl
        dsimp only at hdl
        by_cases hmt : ¬ (compareRecord kv.2 rr).1 ∨ (compareRecord kv.2 rr).2
        · rw [if_pos hmt] at hdl
          rw [List.mem_singleton] at hdl
          rw [hdl]
          exact ⟨rfl, rfl⟩
        · rw [if_neg hmt] at hdl
          cases hdl
    · rw [if_pos (by simp [hsuf])] at hdl
      cases hdl

/-- Witness for C9 (amended): with an empty inventory a single transferred
record yields exactly one MissingRecord for its key. -/
theorem axfr_missing_amended_witness :
    (axfrMissing (buildExpectedRecordsMap [])
        (buildActualRecordsMap [axfrRR1]) "example.com." "ns1").countP
      (fun mr => fqdnTypeKey mr.fqdn mr.recordType
        == fqdnTypeKey axfrRR1.name axfrRR1.rtypeStr) = 1 :=
  (axfr_missing_amended [] [axfrRR1] "example.com." "ns1" false).1 axfrRR1
    (by simp) rfl

end NetboxDnsverify
